import Mathlib

/-!
# qotp_decrypt: the Lua boundary adapter of the QOTP decryption engine

A shallow embedding of `wireshark_plugin/qotp_decrypt.c`.  The adapter is a thin
layer between three outside parties, each of which is an explicit argument here:

* the Lua C API (argument stack in, pushed values out),
* the Windows loader (`LoadLibraryA`, `GetProcAddress`) and the C allocator,
* the Go engine `qotp_crypto.dll`, reached through seven function pointers.

Every boundary function takes the host, the module globals and the Lua argument
stack, and gives back the new globals, the list of engine calls it made (with
their arguments) and what it handed to Lua.
-/

namespace Qotp

/-! ## Lua values and the slice of the Lua C API the adapter uses -/

/-- A Lua value as seen by the adapter.  A Lua string is a byte string; it is
held in a `String`, one character per byte.  The only tables the adapter builds
map integers to integers, kept as the list of stored pairs in storing order.
Lua floats are left out. -/
inductive LuaValue where
  | nil
  | boolean (b : Bool)
  | integer (i : Int)
  | str (s : String)
  | table (entries : List (Int × Int))
  deriving DecidableEq, Repr

/-- The argument stack of one call; argument `n` of the Lua call is `L[n-1]`. -/
abbrev LuaState := List LuaValue

/-- Memory faults the C code can run into: a call through a NULL function
pointer, and a read past the end of an allocated buffer. -/
inductive Fault where
  | nullCall
  | outOfBounds
  deriving DecidableEq, Repr

/-- What a boundary function hands back to Lua: the pushed return values, a
raised Lua error (from a `luaL_check*` on the numbered argument), or a fault. -/
inductive Outcome where
  | returns (vals : List LuaValue)
  | raises (arg : Nat)
  | fault (f : Fault)
  deriving DecidableEq, Repr

/-- C view of a `const char*`: the bytes before the first NUL. -/
def c_str (s : String) : String :=
  String.mk (s.data.takeWhile (fun c => c != '\x00'))

/-- Embeds `luaL_checklstring`: a string is returned whole (with its length), a number
is converted to its decimal text, anything else raises. -/
def luaL_checklstring (L : LuaState) (idx : Nat) : Except Nat String :=
  match L[idx - 1]? with
  | some (LuaValue.str s) => Except.ok s
  | some (LuaValue.integer i) => Except.ok (toString i)
  | _ => Except.error idx

/-- Embeds `luaL_checkstring`: as `luaL_checklstring`, used as a C string. -/
def luaL_checkstring (L : LuaState) (idx : Nat) : Except Nat String :=
  match luaL_checklstring L idx with
  | Except.ok s => Except.ok (c_str s)
  | Except.error e => Except.error e

/-- Embeds `luaL_checkinteger`: an integer is returned as is, a string goes through
Lua's string-to-integer coercion `cvt` (part of the Lua library), anything else
raises. -/
def luaL_checkinteger (cvt : String → Option Int) (L : LuaState) (idx : Nat) :
    Except Nat Int :=
  match L[idx - 1]? with
  | some (LuaValue.integer i) => Except.ok i
  | some (LuaValue.str s) =>
    match cvt s with
    | some i => Except.ok i
    | none => Except.error idx
  | _ => Except.error idx

/-- Embeds `lua_toboolean`: 0 for `nil`, `false` and a missing argument, 1 otherwise. -/
def lua_toboolean (L : LuaState) (idx : Nat) : Int :=
  match L[idx - 1]? with
  | none => 0
  | some LuaValue.nil => 0
  | some (LuaValue.boolean false) => 0
  | some _ => 1

/-- The test `lua_type(L, idx) == LUA_TSTRING`. -/
def lua_isTString (L : LuaState) (idx : Nat) : Bool :=
  match L[idx - 1]? with
  | some (LuaValue.str _) => true
  | _ => false

/-! ## Machine-integer conversions at the boundary -/

/-- The cast `(int)n` for a `size_t` value `n` (32-bit two's-complement `int`). -/
def size_t_to_int (n : Nat) : Int :=
  if n % 2 ^ 32 < 2 ^ 31 then ((n % 2 ^ 32 : Nat) : Int) else ((n % 2 ^ 32 : Nat) : Int) - 2 ^ 32

/-- The cast `(unsigned long long)i` for a `lua_Integer` value `i`. -/
def lua_Integer_to_u64 (i : Int) : Nat :=
  (i % 2 ^ 64).toNat

/-- The call `lua_pushinteger(L, c)` for an `unsigned long long` value `c`: the implicit
conversion to the signed 64-bit `lua_Integer`. -/
def u64_to_lua_Integer (c : Nat) : Int :=
  if c % 2 ^ 64 < 2 ^ 63 then ((c % 2 ^ 64 : Nat) : Int) else ((c % 2 ^ 64 : Nat) : Int) - 2 ^ 64

/-- The product `count * sizeof(unsigned long long)`: `count` is converted to `size_t` and
the product is taken modulo 2^64. -/
def count_times_sizeof (count : Int) : Nat :=
  ((count % 2 ^ 64).toNat * 8) % 2 ^ 64

/-! ## `sscanf(text, "%llx", &conn_id)` -/

/-- The function `isspace` in the C locale. -/
def isspace (c : Char) : Bool :=
  c == ' ' || c == '\t' || c == '\n' || c == '\x0b' || c == '\x0c' || c == '\r'

/-- Value of a hexadecimal digit, either letter case. -/
def hexDigitVal (c : Char) : Option Nat :=
  if '0' ≤ c ∧ c ≤ '9' then some (c.toNat - '0'.toNat)
  else if 'a' ≤ c ∧ c ≤ 'f' then some (c.toNat - 'a'.toNat + 10)
  else if 'A' ≤ c ∧ c ≤ 'F' then some (c.toNat - 'A'.toNat + 10)
  else none

/-- Reads the longest run of hexadecimal digits, accumulating its value. -/
def scanHexDigits : List Char → Nat → Nat
  | [], acc => acc
  | c :: cs, acc =>
    match hexDigitVal c with
    | some d => scanHexDigits cs (acc * 16 + d)
    | none => acc

/-- The digits part of the subject sequence: at least one hexadecimal digit is
needed; the value saturates at `ULLONG_MAX` as `strtoull` does. -/
def scanMagnitude (cs : List Char) : Option Nat :=
  match cs with
  | [] => none
  | c :: _ =>
    match hexDigitVal c with
    | none => none
    | some _ => some (min (scanHexDigits cs 0) (2 ^ 64 - 1))

/-- After the sign: an optional `0x`/`0X` and then the digits.  A `0x` that no
digit follows is a matching failure (ISO C 7.21.6.2, input item `0x`). -/
def scanUnsigned (cs : List Char) : Option Nat :=
  match cs with
  | '0' :: 'x' :: rest => scanMagnitude rest
  | '0' :: 'X' :: rest => scanMagnitude rest
  | _ => scanMagnitude cs

/-- Number of successful conversions and stored value of
`sscanf(text, "%llx", &v)`: white space is skipped, then an optionally signed
hexadecimal integer is read.  `none` covers both the input failure (`EOF`) and
the matching failure (0): the adapter only tests the count against 1.  A minus
sign negates in `unsigned long long`. -/
def sscanf_llx (text : String) : Option Nat :=
  match text.data.dropWhile isspace with
  | '-' :: rest =>
    match scanUnsigned rest with
    | some v => some ((2 ^ 64 - v) % 2 ^ 64)
    | none => none
  | '+' :: rest => scanUnsigned rest
  | cs => scanUnsigned cs

/-! ## The Go engine, the loader and the module globals -/

/-- Embeds `GetConnectionIdFunc`: data pointer and length to `unsigned long long`. -/
abbrev GetConnectionIdFunc := String → Int → Nat
/-- Embeds `GetMessageTypeFunc`: data pointer and length to `int`. -/
abbrev GetMessageTypeFunc := String → Int → Int
/-- Embeds `SetSharedSecretHexFunc`: connection id and C string to `int`. -/
abbrev SetSharedSecretHexFunc := Nat → String → Int
/-- Embeds `DecryptDataPacketFunc`: ciphertext and its length, connection id, sender
flag, epoch and output capacity; gives the `int` result and the bytes it wrote
at the start of the output buffer. -/
abbrev DecryptDataPacketFunc := String → Int → Nat → Int → Nat → Int → Int × List Char
/-- Embeds `GetVersionFunc`. -/
abbrev GetVersionFunc := Unit → String
/-- Embeds `GetLoadedKeyCountFunc`. -/
abbrev GetLoadedKeyCountFunc := Unit → Int
/-- Embeds `GetLoadedKeysFunc`: capacity in entries; gives the `int` result and the
identifiers it wrote at the start of the buffer. -/
abbrev GetLoadedKeysFunc := Int → Int × List Nat

/-- What `GetProcAddress` finds in `qotp_crypto.dll` for each of the seven
names; `none` is a NULL result. -/
structure GoLibrary where
  GetConnectionId : Option GetConnectionIdFunc
  GetMessageType : Option GetMessageTypeFunc
  SetSharedSecretHex : Option SetSharedSecretHexFunc
  DecryptDataPacket : Option DecryptDataPacketFunc
  GetVersion : Option GetVersionFunc
  GetLoadedKeyCount : Option GetLoadedKeyCountFunc
  GetLoadedKeys : Option GetLoadedKeysFunc

/-- The process around the adapter at the time of one call. -/
structure Host where
  /-- Result of `LoadLibraryA("qotp_crypto.dll")`; `none` is NULL. -/
  LoadLibraryA : Option Nat
  /-- What `GetProcAddress` finds in the library. -/
  lib : GoLibrary
  /-- Whether `malloc` of the given size succeeds. -/
  malloc_ok : Nat → Bool
  /-- Indeterminate content of a fresh `char` allocation, by index. -/
  uninit_char : Nat → Char
  /-- Indeterminate content of a fresh `unsigned long long` allocation. -/
  uninit_u64 : Nat → Nat
  /-- Lua's string-to-integer coercion. -/
  cvt2int : String → Option Int

/-- The static globals of the module; `none` is NULL.  A pointer left over from
a library that was freed again is kept as it is, as in the C code. -/
structure Globals where
  goDLL : Option Nat
  go_GetConnectionId : Option GetConnectionIdFunc
  go_GetMessageType : Option GetMessageTypeFunc
  go_SetSharedSecretHex : Option SetSharedSecretHexFunc
  go_DecryptDataPacket : Option DecryptDataPacketFunc
  go_GetVersion : Option GetVersionFunc
  go_GetLoadedKeyCount : Option GetLoadedKeyCountFunc
  go_GetLoadedKeys : Option GetLoadedKeysFunc

/-- All globals start as NULL. -/
def Globals.init : Globals :=
  ⟨none, none, none, none, none, none, none, none⟩

/-- Embeds `load_go_dll`: result and new globals.  The two message boxes and
`FreeLibrary` leave the globals alone and are not shown. -/
def load_go_dll (H : Host) (s : Globals) : Int × Globals :=
  if s.goDLL.isSome then (1, s)
  else
    match H.LoadLibraryA with
    | none => (0, { s with goDLL := none })
    | some h =>
      if H.lib.GetConnectionId.isNone || H.lib.GetMessageType.isNone
          || H.lib.SetSharedSecretHex.isNone || H.lib.DecryptDataPacket.isNone then
        (0, ⟨none, H.lib.GetConnectionId, H.lib.GetMessageType, H.lib.SetSharedSecretHex,
          H.lib.DecryptDataPacket, H.lib.GetVersion, H.lib.GetLoadedKeyCount,
          H.lib.GetLoadedKeys⟩)
      else
        (1, ⟨some h, H.lib.GetConnectionId, H.lib.GetMessageType, H.lib.SetSharedSecretHex,
          H.lib.DecryptDataPacket, H.lib.GetVersion, H.lib.GetLoadedKeyCount,
          H.lib.GetLoadedKeys⟩)

/-- One call into the engine, with the arguments it was given. -/
inductive EngineCall where
  | GetConnectionId (data : String) (len : Int)
  | GetMessageType (data : String) (len : Int)
  | SetSharedSecretHex (conn_id : Nat) (key_hex : String)
  | DecryptDataPacket (encrypted : String) (enc_len : Int) (conn_id : Nat)
      (is_sender : Int) (epoch : Nat) (capacity : Int)
  | GetVersion
  | GetLoadedKeyCount
  | GetLoadedKeys (max : Int)
  deriving DecidableEq, Repr

/-- Result of one boundary call. -/
structure Ret where
  globals : Globals
  calls : List EngineCall
  out : Outcome

/-! ## The boundary functions -/

/-- Why the connection-id argument gave no connection id. -/
inductive ConnIdError where
  | invalidHex
  | raised (arg : Nat)
  deriving DecidableEq, Repr

/-- The connection-id block shared, line for line, by `lua_decrypt_data`
(argument 2) and `lua_set_key` (argument 1): a Lua string is parsed with
`sscanf("%llx")`, anything else goes through `luaL_checkinteger` and the cast
to `unsigned long long`. -/
def parse_conn_id (H : Host) (L : LuaState) (idx : Nat) : Except ConnIdError Nat :=
  if lua_isTString L idx then
    match luaL_checkstring L idx with
    | Except.error e => Except.error (ConnIdError.raised e)
    | Except.ok conn_id_hex =>
      match sscanf_llx conn_id_hex with
      | none => Except.error ConnIdError.invalidHex
      | some conn_id => Except.ok conn_id
  else
    match luaL_checkinteger H.cvt2int L idx with
    | Except.error e => Except.error (ConnIdError.raised e)
    | Except.ok i => Except.ok (lua_Integer_to_u64 i)

/-- Byte `i` of the 64 KB output buffer after the engine wrote `written` at its
start: what was written, else the indeterminate content of the allocation. -/
def outputByte (H : Host) (written : List Char) (i : Nat) : Char :=
  written.getD i (H.uninit_char i)

/-- The message pushed for a negative result of `DecryptDataPacket`. -/
def decryptErrorMessage (result_len : Int) : String :=
  if result_len = -1 then "No shared secret for connection"
  else if result_len = -2 then "Decryption failed"
  else if result_len = -3 then "Output buffer too small"
  else "Unknown error"

/-- Embeds `lua_decrypt_data`. -/
def lua_decrypt_data (H : Host) (s : Globals) (L : LuaState) : Ret :=
  let r := load_go_dll H s
  if r.1 = 0 then ⟨r.2, [], Outcome.returns [LuaValue.nil, LuaValue.str "Failed to load Go DLL"]⟩
  else
    match luaL_checklstring L 1 with
    | Except.error e => ⟨r.2, [], Outcome.raises e⟩
    | Except.ok encrypted =>
      match parse_conn_id H L 2 with
      | Except.error (ConnIdError.raised e) => ⟨r.2, [], Outcome.raises e⟩
      | Except.error ConnIdError.invalidHex =>
        ⟨r.2, [], Outcome.returns [LuaValue.nil, LuaValue.str "Invalid connection ID hex string"]⟩
      | Except.ok conn_id =>
        let is_sender := lua_toboolean L 3
        match luaL_checkinteger H.cvt2int L 4 with
        | Except.error e => ⟨r.2, [], Outcome.raises e⟩
        | Except.ok epoch =>
          if !H.malloc_ok 65536 then
            ⟨r.2, [], Outcome.returns [LuaValue.nil, LuaValue.str "Memory allocation failed"]⟩
          else
            match r.2.go_DecryptDataPacket with
            | none => ⟨r.2, [], Outcome.fault Fault.nullCall⟩
            | some f =>
              let enc_len := size_t_to_int encrypted.length
              let res := f encrypted enc_len conn_id is_sender (lua_Integer_to_u64 epoch) 65536
              let call := EngineCall.DecryptDataPacket encrypted enc_len conn_id is_sender
                (lua_Integer_to_u64 epoch) 65536
              let result_len := res.1
              if result_len < 0 then
                ⟨r.2, [call],
                  Outcome.returns [LuaValue.nil, LuaValue.str (decryptErrorMessage result_len)]⟩
              -- lua_pushlstring copies result_len bytes out of the 65536-byte buffer
              else if result_len.toNat ≤ 65536 then
                ⟨r.2, [call], Outcome.returns
                  [LuaValue.str (String.mk ((List.range result_len.toNat).map (outputByte H res.2)))]⟩
              else ⟨r.2, [call], Outcome.fault Fault.outOfBounds⟩

/-- Embeds `lua_set_key`. -/
def lua_set_key (H : Host) (s : Globals) (L : LuaState) : Ret :=
  let r := load_go_dll H s
  if r.1 = 0 then
    ⟨r.2, [], Outcome.returns [LuaValue.boolean false, LuaValue.str "Failed to load Go DLL"]⟩
  else
    match parse_conn_id H L 1 with
    | Except.error (ConnIdError.raised e) => ⟨r.2, [], Outcome.raises e⟩
    | Except.error ConnIdError.invalidHex =>
      ⟨r.2, [], Outcome.returns
        [LuaValue.boolean false, LuaValue.str "Invalid connection ID hex string"]⟩
    | Except.ok conn_id =>
      match luaL_checklstring L 2 with
      | Except.error e => ⟨r.2, [], Outcome.raises e⟩
      | Except.ok key_hex =>
        match r.2.go_SetSharedSecretHex with
        | none => ⟨r.2, [], Outcome.fault Fault.nullCall⟩
        | some f =>
          let result := f conn_id (c_str key_hex)
          let call := EngineCall.SetSharedSecretHex conn_id (c_str key_hex)
          if result = 0 then ⟨r.2, [call], Outcome.returns [LuaValue.boolean true]⟩
          else ⟨r.2, [call],
            Outcome.returns [LuaValue.boolean false, LuaValue.str "Invalid hex string"]⟩

/-- Embeds `lua_get_conn_id`. -/
def lua_get_conn_id (H : Host) (s : Globals) (L : LuaState) : Ret :=
  let r := load_go_dll H s
  if r.1 = 0 then ⟨r.2, [], Outcome.returns [LuaValue.nil, LuaValue.str "Failed to load Go DLL"]⟩
  else
    match luaL_checklstring L 1 with
    | Except.error e => ⟨r.2, [], Outcome.raises e⟩
    | Except.ok data =>
      if data.length < 9 then
        ⟨r.2, [], Outcome.returns [LuaValue.nil, LuaValue.str "Packet too short"]⟩
      else
        match r.2.go_GetConnectionId with
        | none => ⟨r.2, [], Outcome.fault Fault.nullCall⟩
        | some f =>
          let conn_id := f data (size_t_to_int data.length) % 2 ^ 64
          ⟨r.2, [EngineCall.GetConnectionId data (size_t_to_int data.length)],
            Outcome.returns [LuaValue.integer (u64_to_lua_Integer conn_id)]⟩

/-- The array `type_names`. -/
def type_names : List String :=
  ["InitSnd", "InitRcv", "InitCryptoSnd", "InitCryptoRcv", "Data"]

/-- Embeds `lua_get_message_type`. -/
def lua_get_message_type (H : Host) (s : Globals) (L : LuaState) : Ret :=
  let r := load_go_dll H s
  if r.1 = 0 then ⟨r.2, [], Outcome.returns [LuaValue.str "Error"]⟩
  else
    match luaL_checklstring L 1 with
    | Except.error e => ⟨r.2, [], Outcome.raises e⟩
    | Except.ok data =>
      if data.length < 1 then ⟨r.2, [], Outcome.returns [LuaValue.nil]⟩
      else
        match r.2.go_GetMessageType with
        | none => ⟨r.2, [], Outcome.fault Fault.nullCall⟩
        | some f =>
          let msg_type := f data (size_t_to_int data.length)
          let call := EngineCall.GetMessageType data (size_t_to_int data.length)
          if 0 ≤ msg_type ∧ msg_type ≤ 4 then
            ⟨r.2, [call], Outcome.returns [LuaValue.str (type_names.getD msg_type.toNat "")]⟩
          else ⟨r.2, [call], Outcome.returns [LuaValue.str "Unknown"]⟩

/-- The constant `QOTP_DECRYPT_VERSION`. -/
def QOTP_DECRYPT_VERSION : String := "1.0.0"

/-- An `snprintf` into a 512-byte array: at most 511 bytes are kept. -/
def snprintf512 (text : String) : String :=
  String.mk (text.data.take 511)

/-- Embeds `lua_get_version`. -/
def lua_get_version (H : Host) (s : Globals) (_L : LuaState) : Ret :=
  let r := load_go_dll H s
  if r.1 = 0 then ⟨r.2, [], Outcome.returns [LuaValue.str "ERROR: Failed to load DLL"]⟩
  else
    match r.2.go_GetVersion with
    | none =>
      ⟨r.2, [], Outcome.returns [LuaValue.str (snprintf512
        ("C Wrapper: " ++ QOTP_DECRYPT_VERSION ++ "\nGo Library: " ++ "unknown"))]⟩
    | some f =>
      ⟨r.2, [EngineCall.GetVersion], Outcome.returns [LuaValue.str (snprintf512
        ("C Wrapper: " ++ QOTP_DECRYPT_VERSION ++ "\nGo Library: " ++ c_str (f ())))]⟩

/-- Entry `i` of the identifier buffer after the engine wrote `written` at its
start. -/
def connIdEntry (H : Host) (written : List Nat) (i : Nat) : Nat :=
  written.getD i (H.uninit_u64 i) % 2 ^ 64

/-- The table-filling loop of `lua_get_loaded_keys`,
`for (i = 0; i < actual_count; i++)`, with `remaining` iterations to go at
index `i`: entry `i` of a buffer holding `cap` entries is stored under key
`i + 1`; `none` when the index falls outside the buffer. -/
def keyTableLoop (H : Host) (written : List Nat) (cap : Nat) :
    Nat → Nat → List (Int × Int) → Option (List (Int × Int))
  | 0, _, acc => some acc
  | remaining + 1, i, acc =>
    if i < cap then
      keyTableLoop H written cap remaining (i + 1)
        (acc ++ [((i : Int) + 1, u64_to_lua_Integer (connIdEntry H written i))])
    else none

/-- The whole loop, from `i = 0` on an empty table. -/
def fillKeyTable (H : Host) (written : List Nat) (cap : Nat) (actual_count : Int) :
    Option (List (Int × Int)) :=
  keyTableLoop H written cap actual_count.toNat 0 []

/-- Embeds `lua_get_loaded_keys`. -/
def lua_get_loaded_keys (H : Host) (s : Globals) (_L : LuaState) : Ret :=
  let r := load_go_dll H s
  if r.1 = 0 then ⟨r.2, [], Outcome.returns [LuaValue.table []]⟩
  else
    match r.2.go_GetLoadedKeyCount, r.2.go_GetLoadedKeys with
    | some fCount, some fKeys =>
      let count := fCount ()
      if count = 0 then ⟨r.2, [EngineCall.GetLoadedKeyCount], Outcome.returns [LuaValue.table []]⟩
      else if !H.malloc_ok (count_times_sizeof count) then
        ⟨r.2, [EngineCall.GetLoadedKeyCount], Outcome.returns [LuaValue.table []]⟩
      else
        let res := fKeys count
        let calls := [EngineCall.GetLoadedKeyCount, EngineCall.GetLoadedKeys count]
        -- the buffer holds (count * sizeof(unsigned long long)) / 8 entries
        match fillKeyTable H res.2 (count_times_sizeof count / 8) res.1 with
        | some entries => ⟨r.2, calls, Outcome.returns [LuaValue.table entries]⟩
        | none => ⟨r.2, calls, Outcome.fault Fault.outOfBounds⟩
    | _, _ => ⟨r.2, [], Outcome.returns [LuaValue.table []]⟩

/-- Embeds `lua_test`; the message box is not shown. -/
def lua_test (H : Host) (s : Globals) (_L : LuaState) : Ret :=
  let r := load_go_dll H s
  if r.1 = 0 then ⟨r.2, [], Outcome.returns [LuaValue.boolean false]⟩
  else
    let c1 := match r.2.go_GetLoadedKeyCount with
      | some _ => [EngineCall.GetLoadedKeyCount]
      | none => []
    let c2 := match r.2.go_GetVersion with
      | some _ => [EngineCall.GetVersion]
      | none => []
    ⟨r.2, c1 ++ c2, Outcome.returns [LuaValue.boolean true]⟩

/-- The registration table `qotp_decrypt_funcs`. -/
def qotp_decrypt_funcs : List (String × (Host → Globals → LuaState → Ret)) :=
  [("decrypt_data", lua_decrypt_data),
   ("set_key", lua_set_key),
   ("get_conn_id", lua_get_conn_id),
   ("get_message_type", lua_get_message_type),
   ("get_version", lua_get_version),
   ("get_loaded_keys", lua_get_loaded_keys),
   ("test", lua_test)]

/-- The function pointer an engine call goes through is non-null in `g`. -/
def EngineCall.boundIn (g : Globals) : EngineCall → Bool
  | EngineCall.GetConnectionId _ _ => g.go_GetConnectionId.isSome
  | EngineCall.GetMessageType _ _ => g.go_GetMessageType.isSome
  | EngineCall.SetSharedSecretHex _ _ => g.go_SetSharedSecretHex.isSome
  | EngineCall.DecryptDataPacket _ _ _ _ _ _ => g.go_DecryptDataPacket.isSome
  | EngineCall.GetVersion => g.go_GetVersion.isSome
  | EngineCall.GetLoadedKeyCount => g.go_GetLoadedKeyCount.isSome
  | EngineCall.GetLoadedKeys _ => g.go_GetLoadedKeys.isSome

/-! ## The binding invariant of the globals -/

/-- A non-null library handle comes with the four required entry points. -/
def Globals.Bound (s : Globals) : Prop :=
  s.goDLL.isSome = true →
    s.go_GetConnectionId.isSome = true ∧ s.go_GetMessageType.isSome = true ∧
    s.go_SetSharedSecretHex.isSome = true ∧ s.go_DecryptDataPacket.isSome = true

instance (s : Globals) : Decidable s.Bound := by
  unfold Globals.Bound; infer_instance

/-- Globals after a sequence of `load_go_dll` calls, one per host snapshot. -/
def runLoads (hosts : List Host) (s : Globals) : Globals :=
  hosts.foldl (fun g H => (load_go_dll H g).2) s

/-! ## Hexadecimal text of a connection id -/

/-- The character for hexadecimal digit `d`, in the chosen letter case. -/
def hexDigitChar (upper : Bool) (d : Nat) : Char :=
  if d < 10 then Char.ofNat (48 + d)
  else if upper then Char.ofNat (55 + d)
  else Char.ofNat (87 + d)

/-- The `width` low hexadecimal digits of `c`, most significant first; the
letter case of the digit at place `k` (counted from the least significant) is
chosen by `upper k`. -/
def hexChars (upper : Nat → Bool) : Nat → Nat → List Char
  | 0, _ => []
  | w + 1, c => hexChars upper w (c / 16) ++ [hexDigitChar (upper w) (c % 16)]

/-- Hexadecimal text of `c` on `width` digits. -/
def hexText (upper : Nat → Bool) (width : Nat) (c : Nat) : String :=
  String.mk (hexChars upper width c)

/-- What `sscanf("%llx")` looks at for digits: the C string after leading white
space and one optional sign. -/
def scanSubject (text : String) : List Char :=
  match (c_str text).data.dropWhile isspace with
  | '-' :: rest => rest
  | '+' :: rest => rest
  | cs => cs

/-- The text has no hexadecimal digit to convert: where the digits should
start, the text ends or shows a character that is not a hexadecimal digit. -/
def NoHexDigitToConvert (text : String) : Prop :=
  ∀ ch, (scanSubject text).head? = some ch → hexDigitVal ch = none

instance (text : String) : Decidable (NoHexDigitToConvert text) := by
  unfold NoHexDigitToConvert
  cases h : (scanSubject text).head? with
  | none => exact isTrue (by intro ch hc; cases hc)
  | some c =>
    by_cases hv : hexDigitVal c = none
    · exact isTrue (by intro ch hc; cases hc; exact hv)
    · exact isFalse (fun hall => hv (hall c rfl))

/-! ## The engine behind `DecryptDataPacket`, from its specification -/

/-- Modelled from the spec: the authenticated cipher used by the decryption
engine of section 4.4 (the engine source `crypto.go` is not part of the
adapter).  `encrypt` seals a plaintext under a secret, a nonce and associated
data; `decryptAuth` is the authenticated decryption, `none` when the tag does not
verify or the ciphertext is structurally invalid. -/
structure AEAD (N A : Type) where
  encrypt : String → N → A → String → String
  decryptAuth : String → N → A → String → Option String

/-- Modelled from the spec: the failure kinds of `decrypt` in section 4.4. -/
inductive ErrorKind where
  | NoKeyForConnection
  | AuthenticationFailed
  | OutputTooSmall
  deriving DecidableEq, Repr

/-- Modelled from the spec: `decrypt(ciphertext, connection_id, direction,
epoch, output_capacity)` of section 4.4, steps 1 to 5, over a key store
`get_secret` and a nonce/associated-data builder `build`. -/
def decrypt {N A : Type} (C : AEAD N A) (build : Nat → Bool → Nat → N × A)
    (get_secret : Nat → Option String) (ciphertext : String) (connection_id : Nat)
    (direction : Bool) (epoch : Nat) (output_capacity : Nat) : Except ErrorKind String :=
  match get_secret connection_id with
  | none => Except.error ErrorKind.NoKeyForConnection
  | some secret =>
    match C.decryptAuth secret (build connection_id direction epoch).1
        (build connection_id direction epoch).2 ciphertext with
    | none => Except.error ErrorKind.AuthenticationFailed
    | some plaintext =>
      if plaintext.length > output_capacity then Except.error ErrorKind.OutputTooSmall
      else Except.ok plaintext

/-- Modelled from the spec: the exported `DecryptDataPacket` of the engine, the
`decrypt` of section 4.4 behind the C signature.  The ciphertext is the first
`enc_len` bytes at the pointer, a nonzero flag is the sender direction, the
plaintext is written to the output buffer and its length returned; the failure
kinds are the negative sentinels the adapter tells apart: -1 no key, -2
authentication failed, -3 output too small. -/
def engine_DecryptDataPacket {N A : Type} (C : AEAD N A) (build : Nat → Bool → Nat → N × A)
    (get_secret : Nat → Option String) : DecryptDataPacketFunc :=
  fun encrypted enc_len conn_id is_sender epoch capacity =>
    match decrypt C build get_secret (String.mk (encrypted.data.take enc_len.toNat)) conn_id
        (is_sender != 0) epoch capacity.toNat with
    | Except.error ErrorKind.NoKeyForConnection => (-1, [])
    | Except.error ErrorKind.AuthenticationFailed => (-2, [])
    | Except.error ErrorKind.OutputTooSmall => (-3, [])
    | Except.ok plaintext => ((plaintext.length : Int), plaintext.data)

/-! ## Concrete hosts and engines used to exercise the statements -/

/-- A toy cipher for exercising the engine: the nonce is a number `n`, the
ciphertext is `n` times `a`, then `b`, then the plaintext; decryption checks
that header. -/
def toyAEAD : AEAD Nat Unit where
  encrypt := fun _ n _ m => String.mk (List.replicate n 'a' ++ 'b' :: m.data)
  decryptAuth := fun _ n _ ct =>
    if ct.data.take (n + 1) = List.replicate n 'a' ++ ['b'] then
      some (String.mk (ct.data.drop (n + 1)))
    else none

/-- A toy nonce builder binding connection id, direction and epoch. -/
def toyBuild (c : Nat) (d : Bool) (e : Nat) : Nat × Unit :=
  (Nat.pair c (2 * e + (if d then 1 else 0)), ())

/-- A key store holding one secret, for connection id 1. -/
def toyStore (c : Nat) : Option String :=
  if c = 1 then some "00112233445566778899aabbccddeeff00112233445566778899aabbccddeeff" else none

/-- An engine library exporting all seven entry points: the connection id is
bytes 1 to 8 of the packet in big-endian order, the message type is the first
byte, a secret is accepted when its length is even, and two keys are loaded. -/
def demoLibrary : GoLibrary where
  GetConnectionId := some (fun data _ =>
    ((data.data.drop 1).take 8).foldl (fun acc ch => acc * 256 + ch.toNat) 0)
  GetMessageType := some (fun data _ =>
    match data.data with
    | [] => -1
    | ch :: _ => (ch.toNat : Int))
  SetSharedSecretHex := some (fun _ key => if key.length % 2 = 0 then 0 else -1)
  DecryptDataPacket := some (engine_DecryptDataPacket toyAEAD toyBuild toyStore)
  GetVersion := some (fun _ => "1.2.3")
  GetLoadedKeyCount := some (fun _ => 2)
  GetLoadedKeys := some (fun _ => (2, [0x1122334455667788, 0xffeeddccbbaa9988]))

/-- A host where the library loads and every allocation up to 1 MB succeeds. -/
def demoHost : Host where
  LoadLibraryA := some 1
  lib := demoLibrary
  malloc_ok := fun n => decide (n ≤ 1048576)
  uninit_char := fun _ => '?'
  uninit_u64 := fun _ => 0
  cvt2int := fun _ => none

/-- A host where `qotp_crypto.dll` cannot be loaded. -/
def hostNoLibrary : Host where
  LoadLibraryA := none
  lib := demoLibrary
  malloc_ok := fun _ => true
  uninit_char := fun _ => '?'
  uninit_u64 := fun _ => 0
  cvt2int := fun _ => none

/-- The six type strings of the `get_message_type` contract. -/
def messageTypeStrings : List String :=
  ["InitSnd", "InitRcv", "InitCryptoSnd", "InitCryptoRcv", "Data", "Unknown"]

/-- Every character of the list is a hexadecimal digit character. -/
def AllHex (l : List Char) : Prop :=
  ∀ ch ∈ l, ∃ u d, d < 16 ∧ ch = hexDigitChar u d

/-- A boundary call is safe on `s`: it leaves the globals as `load_go_dll`
does, calls no null pointer, and every engine call it makes goes through a
pointer that is bound. -/
def SafeOn (op : Host → Globals → LuaState → Ret) (H : Host) (s : Globals) (L : LuaState) :
    Prop :=
  (op H s L).globals = (load_go_dll H s).2 ∧
  (op H s L).out ≠ Outcome.fault Fault.nullCall ∧
  ∀ call ∈ (op H s L).calls, call.boundIn (load_go_dll H s).2 = true

/-! ## Facts about `load_go_dll` -/

theorem load_go_dll_result (H : Host) (s : Globals) :
    (load_go_dll H s).1 = 1 ∨ (load_go_dll H s).1 = 0 := by
  unfold load_go_dll
  split
  · simp
  · split
    · simp
    · split <;> simp

theorem load_go_dll_handle (H : Host) (s : Globals) :
    ((load_go_dll H s).1 = 1 ↔ (load_go_dll H s).2.goDLL.isSome = true) := by
  unfold load_go_dll
  split
  · simpa
  · split
    · simp
    · split <;> simp

theorem load_go_dll_bound (H : Host) (s : Globals) (hs : s.Bound) :
    (load_go_dll H s).2.Bound := by
  unfold load_go_dll
  split
  · exact hs
  · split
    · intro h; simp at h
    · split
      · intro h; simp at h
      · rename_i hreq
        intro _
        simp only [Bool.or_eq_true, Option.isNone_iff_eq_none, not_or] at hreq
        simp only [Option.isSome_iff_ne_none]
        tauto

theorem load_go_dll_required (H : Host) (s : Globals) (hs : s.Bound)
    (hload : (load_go_dll H s).1 = 1) :
    (∃ f, (load_go_dll H s).2.go_GetConnectionId = some f) ∧
    (∃ f, (load_go_dll H s).2.go_GetMessageType = some f) ∧
    (∃ f, (load_go_dll H s).2.go_SetSharedSecretHex = some f) ∧
    (∃ f, (load_go_dll H s).2.go_DecryptDataPacket = some f) := by
  have hb := load_go_dll_bound H s hs ((load_go_dll_handle H s).1 hload)
  simpa only [Option.isSome_iff_exists] using hb

theorem load_go_dll_loaded (H : Host) (s : Globals) (h : s.goDLL.isSome = true) :
    load_go_dll H s = (1, s) := by
  unfold load_go_dll
  simp [h]

theorem runLoads_bound (hosts : List Host) (s : Globals) (hs : s.Bound) :
    (runLoads hosts s).Bound := by
  induction hosts generalizing s with
  | nil => exact hs
  | cons H t ih => exact ih _ (load_go_dll_bound H s hs)

theorem init_bound : Globals.init.Bound := by
  intro h; simp [Globals.init] at h

theorem map_range_getD {α : Type} (l : List α) (d : Nat → α) (n : Nat) (h : n ≤ l.length) :
    (List.range n).map (fun i => l.getD i (d i)) = l.take n := by
  apply List.ext_getElem
  · simp [h]
  · intro i h1 h2
    simp only [List.length_map, List.length_range] at h1
    simp [List.getD_eq_getElem?_getD, List.getElem?_eq_getElem (lt_of_lt_of_le h1 h)]

/-! ## `get_conn_id` -/

/-- Claim C1: with the engine loaded, a packet shorter than 9 bytes gives
`(nil, "Packet too short")` and the engine's connection-id extractor is not
called; a packet of 9 bytes or more makes exactly one extractor call and gives
one integer, the signed 64-bit reading of the extracted value. -/
theorem get_conn_id_contract (H : Host) (s : Globals) (b : String) (rest : LuaState)
    (hs : s.Bound) (hload : (load_go_dll H s).1 = 1) :
    (b.length < 9 →
      (lua_get_conn_id H s (LuaValue.str b :: rest)).out
          = Outcome.returns [LuaValue.nil, LuaValue.str "Packet too short"] ∧
      (lua_get_conn_id H s (LuaValue.str b :: rest)).calls = []) ∧
    (9 ≤ b.length →
      ∃ f, (load_go_dll H s).2.go_GetConnectionId = some f ∧
        (lua_get_conn_id H s (LuaValue.str b :: rest)).calls
          = [EngineCall.GetConnectionId b (size_t_to_int b.length)] ∧
        (lua_get_conn_id H s (LuaValue.str b :: rest)).out
          = Outcome.returns [LuaValue.integer
              (u64_to_lua_Integer (f b (size_t_to_int b.length) % 2 ^ 64))]) := by
  obtain ⟨⟨f, hf⟩, -⟩ := load_go_dll_required H s hs hload
  constructor
  · intro hlt
    simp [lua_get_conn_id, hload, luaL_checklstring, hlt]
  · intro hge
    refine ⟨f, hf, ?_, ?_⟩ <;>
      simp [lua_get_conn_id, hload, luaL_checklstring, Nat.not_lt.mpr hge, hf]

/-! ## `decrypt_data`: failures -/

/-- Claim C2: when the engine's `DecryptDataPacket` gives a negative result `r`,
`decrypt_data` returns the pair `(nil, message)`; the message is "No shared
secret for connection" for -1, "Decryption failed" for -2, "Output buffer too
small" for -3, these three differ from one another, and every other negative
`r` gives "Unknown error". -/
theorem decrypt_data_negative_result (H : Host) (s : Globals) (L : LuaState)
    (f : DecryptDataPacketFunc) (encrypted : String) (conn_id : Nat) (epoch r : Int)
    (hload : (load_go_dll H s).1 = 1)
    (hf : (load_go_dll H s).2.go_DecryptDataPacket = some f)
    (h1 : luaL_checklstring L 1 = Except.ok encrypted)
    (h2 : parse_conn_id H L 2 = Except.ok conn_id)
    (h4 : luaL_checkinteger H.cvt2int L 4 = Except.ok epoch)
    (hm : H.malloc_ok 65536 = true)
    (hr : (f encrypted (size_t_to_int encrypted.length) conn_id (lua_toboolean L 3)
            (lua_Integer_to_u64 epoch) 65536).1 = r)
    (hneg : r < 0) :
    (lua_decrypt_data H s L).out
        = Outcome.returns [LuaValue.nil, LuaValue.str (decryptErrorMessage r)] ∧
    (r = -1 → decryptErrorMessage r = "No shared secret for connection") ∧
    (r = -2 → decryptErrorMessage r = "Decryption failed") ∧
    (r = -3 → decryptErrorMessage r = "Output buffer too small") ∧
    (r ≠ -1 → r ≠ -2 → r ≠ -3 → decryptErrorMessage r = "Unknown error") ∧
    ("No shared secret for connection" ≠ "Decryption failed" ∧
      "No shared secret for connection" ≠ "Output buffer too small" ∧
      "Decryption failed" ≠ "Output buffer too small") := by
  refine ⟨?_, ?_, ?_, ?_, ?_, by decide⟩
  · simp [lua_decrypt_data, hload, h1, h2, h4, hm, hf, hr, hneg]
  · rintro rfl; rfl
  · rintro rfl; rfl
  · rintro rfl; rfl
  · intro a b c; simp [decryptErrorMessage, a, b, c]

/-! ## `get_message_type` -/

/-- Claim C3, as stated, fails: when `qotp_crypto.dll` cannot be loaded,
`get_message_type` on a one-byte packet returns the string "Error", which is
neither nil nor one of the six type strings. -/
theorem get_message_type_load_failure_gives_Error :
    (lua_get_message_type hostNoLibrary Globals.init [LuaValue.str "\x04"]).out
        = Outcome.returns [LuaValue.str "Error"] ∧
    ¬ ((lua_get_message_type hostNoLibrary Globals.init [LuaValue.str "\x04"]).out
          = Outcome.returns [LuaValue.nil] ∨
        ∃ t ∈ messageTypeStrings,
          (lua_get_message_type hostNoLibrary Globals.init [LuaValue.str "\x04"]).out
            = Outcome.returns [LuaValue.str t]) := by
  have h : (lua_get_message_type hostNoLibrary Globals.init [LuaValue.str "\x04"]).out
      = Outcome.returns [LuaValue.str "Error"] := by
    simp [lua_get_message_type, load_go_dll, hostNoLibrary, Globals.init]
  refine ⟨h, ?_⟩
  rw [h]
  simp [messageTypeStrings]

/-- Claim C3, amended: for every input byte string, when the engine cannot be
loaded `get_message_type` returns the string "Error"; when it is loaded the
result is nil or one of the six type strings, nil exactly when the input is
shorter than 1 byte, and for a non-empty input the engine codes 0 to 4 give
"InitSnd", "InitRcv", "InitCryptoSnd", "InitCryptoRcv", "Data" and every other
code gives "Unknown". -/
theorem get_message_type_contract (H : Host) (s : Globals) (b : String) (rest : LuaState)
    (hs : s.Bound) :
    ((load_go_dll H s).1 = 0 →
      (lua_get_message_type H s (LuaValue.str b :: rest)).out
        = Outcome.returns [LuaValue.str "Error"]) ∧
    ((load_go_dll H s).1 = 1 →
      ((lua_get_message_type H s (LuaValue.str b :: rest)).out = Outcome.returns [LuaValue.nil] ∨
        ∃ t ∈ messageTypeStrings,
          (lua_get_message_type H s (LuaValue.str b :: rest)).out
            = Outcome.returns [LuaValue.str t]) ∧
      ((lua_get_message_type H s (LuaValue.str b :: rest)).out = Outcome.returns [LuaValue.nil]
        ↔ b.length < 1) ∧
      (1 ≤ b.length →
        ∃ f, (load_go_dll H s).2.go_GetMessageType = some f ∧
          (∀ t, (lua_get_message_type H s (LuaValue.str b :: rest)).out
                = Outcome.returns [LuaValue.str t] ↔
              (f b (size_t_to_int b.length) = 0 ∧ t = "InitSnd") ∨
              (f b (size_t_to_int b.length) = 1 ∧ t = "InitRcv") ∨
              (f b (size_t_to_int b.length) = 2 ∧ t = "InitCryptoSnd") ∨
              (f b (size_t_to_int b.length) = 3 ∧ t = "InitCryptoRcv") ∨
              (f b (size_t_to_int b.length) = 4 ∧ t = "Data") ∨
              ((f b (size_t_to_int b.length) < 0 ∨ 4 < f b (size_t_to_int b.length))
                ∧ t = "Unknown")))) := by
  constructor
  · intro h0
    simp [lua_get_message_type, h0]
  · intro hload
    obtain ⟨-, ⟨f, hf⟩, -⟩ := load_go_dll_required H s hs hload
    by_cases hlen : b.length < 1
    · have hout : (lua_get_message_type H s (LuaValue.str b :: rest)).out
          = Outcome.returns [LuaValue.nil] := by
        simp [lua_get_message_type, hload, luaL_checklstring, hlen]
      refine ⟨Or.inl hout, ⟨fun _ => hlen, fun _ => hout⟩, fun h1 => absurd hlen (by omega)⟩
    · have key : ∀ t, (lua_get_message_type H s (LuaValue.str b :: rest)).out
            = Outcome.returns [LuaValue.str t] ↔
          (f b (size_t_to_int b.length) = 0 ∧ t = "InitSnd") ∨
          (f b (size_t_to_int b.length) = 1 ∧ t = "InitRcv") ∨
          (f b (size_t_to_int b.length) = 2 ∧ t = "InitCryptoSnd") ∨
          (f b (size_t_to_int b.length) = 3 ∧ t = "InitCryptoRcv") ∨
          (f b (size_t_to_int b.length) = 4 ∧ t = "Data") ∨
          ((f b (size_t_to_int b.length) < 0 ∨ 4 < f b (size_t_to_int b.length))
            ∧ t = "Unknown") := by
        intro t
        have hval : (lua_get_message_type H s (LuaValue.str b :: rest)).out
            = if 0 ≤ f b (size_t_to_int b.length) ∧ f b (size_t_to_int b.length) ≤ 4 then
                Outcome.returns [LuaValue.str
                  (type_names.getD (f b (size_t_to_int b.length)).toNat "")]
              else Outcome.returns [LuaValue.str "Unknown"] := by
          simp only [lua_get_message_type, hload, luaL_checklstring, hf]
          simp [hlen]
          split <;> simp [*]
        rw [hval]
        generalize f b (size_t_to_int b.length) = code
        by_cases hr : 0 ≤ code ∧ code ≤ 4
        · rw [if_pos hr]
          obtain ⟨h0, h4⟩ := hr
          have hcases : code = 0 ∨ code = 1 ∨ code = 2 ∨ code = 3 ∨ code = 4 := by omega
          rcases hcases with h | h | h | h | h <;> subst h <;>
            simp [type_names, eq_comm]
        · rw [if_neg hr]
          have hout : code < 0 ∨ 4 < code := by omega
          have h0 : code ≠ 0 := by omega
          have h1 : code ≠ 1 := by omega
          have h2 : code ≠ 2 := by omega
          have h3 : code ≠ 3 := by omega
          have h4 : code ≠ 4 := by omega
          simp [h0, h1, h2, h3, h4, hout, eq_comm]
      refine ⟨?_, ?_, fun _ => ⟨f, hf, key⟩⟩
      · right
        have hc : f b (size_t_to_int b.length) = 0 ∨ f b (size_t_to_int b.length) = 1 ∨
            f b (size_t_to_int b.length) = 2 ∨ f b (size_t_to_int b.length) = 3 ∨
            f b (size_t_to_int b.length) = 4 ∨
            (f b (size_t_to_int b.length) < 0 ∨ 4 < f b (size_t_to_int b.length)) := by omega
        rcases hc with h | h | h | h | h | h
        · exact ⟨"InitSnd", by simp [messageTypeStrings], (key _).2 (Or.inl ⟨h, rfl⟩)⟩
        · exact ⟨"InitRcv", by simp [messageTypeStrings], (key _).2 (Or.inr (Or.inl ⟨h, rfl⟩))⟩
        · exact ⟨"InitCryptoSnd", by simp [messageTypeStrings],
            (key _).2 (Or.inr (Or.inr (Or.inl ⟨h, rfl⟩)))⟩
        · exact ⟨"InitCryptoRcv", by simp [messageTypeStrings],
            (key _).2 (Or.inr (Or.inr (Or.inr (Or.inl ⟨h, rfl⟩))))⟩
        · exact ⟨"Data", by simp [messageTypeStrings],
            (key _).2 (Or.inr (Or.inr (Or.inr (Or.inr (Or.inl ⟨h, rfl⟩)))))⟩
        · exact ⟨"Unknown", by simp [messageTypeStrings],
            (key _).2 (Or.inr (Or.inr (Or.inr (Or.inr (Or.inr ⟨h, rfl⟩)))))⟩
      · constructor
        · intro hnil
          exfalso
          have hc : f b (size_t_to_int b.length) = 0 ∨ f b (size_t_to_int b.length) = 1 ∨
              f b (size_t_to_int b.length) = 2 ∨ f b (size_t_to_int b.length) = 3 ∨
              f b (size_t_to_int b.length) = 4 ∨
              (f b (size_t_to_int b.length) < 0 ∨ 4 < f b (size_t_to_int b.length)) := by omega
          have hstr : ∃ t, (lua_get_message_type H s (LuaValue.str b :: rest)).out
              = Outcome.returns [LuaValue.str t] := by
            rcases hc with h | h | h | h | h | h
            · exact ⟨_, (key _).2 (Or.inl ⟨h, rfl⟩)⟩
            · exact ⟨_, (key _).2 (Or.inr (Or.inl ⟨h, rfl⟩))⟩
            · exact ⟨_, (key _).2 (Or.inr (Or.inr (Or.inl ⟨h, rfl⟩)))⟩
            · exact ⟨_, (key _).2 (Or.inr (Or.inr (Or.inr (Or.inl ⟨h, rfl⟩))))⟩
            · exact ⟨_, (key _).2 (Or.inr (Or.inr (Or.inr (Or.inr (Or.inl ⟨h, rfl⟩)))))⟩
            · exact ⟨_, (key _).2 (Or.inr (Or.inr (Or.inr (Or.inr (Or.inr ⟨h, rfl⟩)))))⟩
          obtain ⟨t, ht⟩ := hstr
          rw [ht] at hnil
          simp at hnil
        · intro h; exact absurd h hlen

/-! ## `set_key` -/

/-- Claim C6: with the engine loaded, for a connection-id argument the adapter
accepts and a secret string, `set_key` calls `SetSharedSecretHex` once and
returns the single value `true` exactly when the engine gave 0; for any other
engine result it returns the pair `(false, "Invalid hex string")`. -/
theorem set_key_result (H : Host) (s : Globals) (L : LuaState)
    (f : SetSharedSecretHexFunc) (conn_id : Nat) (key_hex : String)
    (hload : (load_go_dll H s).1 = 1)
    (hf : (load_go_dll H s).2.go_SetSharedSecretHex = some f)
    (h1 : parse_conn_id H L 1 = Except.ok conn_id)
    (h2 : luaL_checklstring L 2 = Except.ok key_hex) :
    (lua_set_key H s L).calls = [EngineCall.SetSharedSecretHex conn_id (c_str key_hex)] ∧
    ((lua_set_key H s L).out = Outcome.returns [LuaValue.boolean true]
      ↔ f conn_id (c_str key_hex) = 0) ∧
    (f conn_id (c_str key_hex) ≠ 0 →
      (lua_set_key H s L).out
        = Outcome.returns [LuaValue.boolean false, LuaValue.str "Invalid hex string"]) := by
  by_cases hz : f conn_id (c_str key_hex) = 0
  · refine ⟨?_, ?_, fun h => absurd hz h⟩ <;>
      simp [lua_set_key, hload, h1, h2, hf, hz]
  · refine ⟨?_, ?_, fun _ => ?_⟩ <;>
      simp [lua_set_key, hload, h1, h2, hf, hz]

/-! ## `decrypt_data`: output capacity -/

theorem decrypt_data_calls_capacity (H : Host) (s : Globals) (L : LuaState) :
    ∀ call ∈ (lua_decrypt_data H s L).calls,
      ∃ enc len cid snd ep, call = EngineCall.DecryptDataPacket enc len cid snd ep 65536 := by
  unfold lua_decrypt_data
  simp only []
  (repeat' split) <;> simp

/-- Claim C4: every engine call `decrypt_data` makes offers an output capacity
of exactly 65536 bytes; when the engine gives a length `n` with
`0 ≤ n ≤ 65536` and wrote at least `n` bytes, `decrypt_data` returns exactly
the first `n` bytes written, a string of length `n ≤ 65536`; the engine's
output-too-small result -3 gives `(nil, "Output buffer too small")`; and with
the engine's `decrypt` of section 4.4 behind `DecryptDataPacket`, a ciphertext
whose plaintext is longer than 65536 bytes gives that failure, not a shortened
plaintext. -/
theorem decrypt_data_capacity (H : Host) (s : Globals) (L : LuaState)
    (f : DecryptDataPacketFunc) (encrypted : String) (conn_id : Nat) (epoch : Int)
    (hload : (load_go_dll H s).1 = 1)
    (hf : (load_go_dll H s).2.go_DecryptDataPacket = some f)
    (h1 : luaL_checklstring L 1 = Except.ok encrypted)
    (h2 : parse_conn_id H L 2 = Except.ok conn_id)
    (h4 : luaL_checkinteger H.cvt2int L 4 = Except.ok epoch)
    (hm : H.malloc_ok 65536 = true) :
    (∀ H0 s0 L0, ∀ call ∈ (lua_decrypt_data H0 s0 L0).calls,
      ∃ enc len cid snd ep, call = EngineCall.DecryptDataPacket enc len cid snd ep 65536) ∧
    (lua_decrypt_data H s L).calls
      = [EngineCall.DecryptDataPacket encrypted (size_t_to_int encrypted.length) conn_id
          (lua_toboolean L 3) (lua_Integer_to_u64 epoch) 65536] ∧
    (∀ (n : Nat) (written : List Char),
      f encrypted (size_t_to_int encrypted.length) conn_id (lua_toboolean L 3)
          (lua_Integer_to_u64 epoch) 65536 = ((n : Int), written) →
      n ≤ 65536 → n ≤ written.length →
      (lua_decrypt_data H s L).out
          = Outcome.returns [LuaValue.str (String.mk (written.take n))] ∧
      (String.mk (written.take n)).length = n) ∧
    ((f encrypted (size_t_to_int encrypted.length) conn_id (lua_toboolean L 3)
          (lua_Integer_to_u64 epoch) 65536).1 = -3 →
      (lua_decrypt_data H s L).out
        = Outcome.returns [LuaValue.nil, LuaValue.str "Output buffer too small"]) ∧
    (∀ (N A : Type) (C : AEAD N A) (build : Nat → Bool → Nat → N × A)
        (get_secret : Nat → Option String) (secret plaintext : String),
      f = engine_DecryptDataPacket C build get_secret →
      get_secret conn_id = some secret →
      C.decryptAuth secret
          (build conn_id (lua_toboolean L 3 != 0) (lua_Integer_to_u64 epoch)).1
          (build conn_id (lua_toboolean L 3 != 0) (lua_Integer_to_u64 epoch)).2
          (String.mk (encrypted.data.take (size_t_to_int encrypted.length).toNat))
        = some plaintext →
      65536 < plaintext.length →
      (lua_decrypt_data H s L).out
        = Outcome.returns [LuaValue.nil, LuaValue.str "Output buffer too small"]) := by
  have hneg3 : (f encrypted (size_t_to_int encrypted.length) conn_id (lua_toboolean L 3)
          (lua_Integer_to_u64 epoch) 65536).1 = -3 →
      (lua_decrypt_data H s L).out
        = Outcome.returns [LuaValue.nil, LuaValue.str "Output buffer too small"] := by
    intro hr
    simp [lua_decrypt_data, hload, h1, h2, h4, hm, hf, hr, decryptErrorMessage]
  refine ⟨decrypt_data_calls_capacity, ?_, ?_, hneg3, ?_⟩
  · simp only [lua_decrypt_data, hload, h1, h2, h4, hm, hf]
    simp only [one_ne_zero, if_false, Bool.not_true, Bool.false_eq_true]
    (repeat' split) <;> rfl
  · intro n written hres hn hw
    constructor
    · simp only [lua_decrypt_data, hload, h1, h2, h4, hm, hf, hres]
      have hnn : ¬ ((n : Int) < 0) := by omega
      have hmap : (List.range n).map (outputByte H written) = written.take n :=
        map_range_getD written H.uninit_char n hw
      simp [hnn, hn, hmap]
    · simp [String.length, hw]
  · intro N A C build get_secret secret plaintext hfe hkey hdec hlen
    apply hneg3
    subst hfe
    simp [engine_DecryptDataPacket, decrypt, hkey, hdec, hlen]

/-! ## The hex-string connection-id path -/

theorem hexDigitVal_hexDigitChar (u : Bool) (d : Nat) (h : d < 16) :
    hexDigitVal (hexDigitChar u d) = some d := by
  interval_cases d <;> cases u <;> rfl

theorem hexDigitChar_plain (u : Bool) (d : Nat) (h : d < 16) :
    isspace (hexDigitChar u d) = false ∧ hexDigitChar u d ≠ '-' ∧ hexDigitChar u d ≠ '+' ∧
    hexDigitChar u d ≠ 'x' ∧ hexDigitChar u d ≠ 'X' ∧ hexDigitChar u d ≠ '\x00' := by
  interval_cases d <;> cases u <;> decide

theorem hexChars_allHex (up : Nat → Bool) (w c : Nat) : AllHex (hexChars up w c) := by
  induction w generalizing c with
  | zero => intro ch h; simp [hexChars] at h
  | succ n ih =>
    intro ch h
    simp only [hexChars, List.mem_append, List.mem_singleton] at h
    rcases h with h | h
    · exact ih _ ch h
    · exact ⟨up n, c % 16, Nat.mod_lt _ (by norm_num), h⟩

theorem hexChars_length (up : Nat → Bool) (w c : Nat) : (hexChars up w c).length = w := by
  induction w generalizing c with
  | zero => rfl
  | succ n ih => simp [hexChars, ih]

theorem scanHexDigits_hexChars (up : Nat → Bool) (w : Nat) :
    ∀ (c acc : Nat) (tail : List Char),
      scanHexDigits (hexChars up w c ++ tail) acc
        = scanHexDigits tail (acc * 16 ^ w + c % 16 ^ w) := by
  induction w with
  | zero => intro c acc tail; simp [hexChars, Nat.mod_one]
  | succ n ih =>
    intro c acc tail
    rw [hexChars, List.append_assoc, ih]
    simp only [List.singleton_append, scanHexDigits,
      hexDigitVal_hexDigitChar (up n) (c % 16) (Nat.mod_lt _ (by norm_num))]
    congr 1
    rw [pow_succ', Nat.mod_mul]
    ring

theorem c_str_of_no_nul (t : String) (h : ∀ ch ∈ t.data, ch ≠ '\x00') : c_str t = t := by
  unfold c_str
  have : t.data.takeWhile (fun c => c != '\x00') = t.data := by
    rw [List.takeWhile_eq_self_iff]
    intro ch hch
    simpa using h ch hch
  rw [this]

theorem scanUnsigned_allHex (cs : List Char) (h : AllHex cs) (hne : cs ≠ []) :
    scanUnsigned cs = some (min (scanHexDigits cs 0) (2 ^ 64 - 1)) := by
  have hmag : scanMagnitude cs = some (min (scanHexDigits cs 0) (2 ^ 64 - 1)) := by
    cases cs with
    | nil => exact absurd rfl hne
    | cons a t =>
      obtain ⟨u, d, hd, ha⟩ := h a (List.mem_cons_self _ _)
      simp [scanMagnitude, ha, hexDigitVal_hexDigitChar u d hd]
  unfold scanUnsigned
  split
  · rename_i rest
    obtain ⟨u, d, hd, ha⟩ := h 'x' (by simp)
    exact absurd ha.symm (hexDigitChar_plain u d hd).2.2.2.1
  · rename_i rest
    obtain ⟨u, d, hd, ha⟩ := h 'X' (by simp)
    exact absurd ha.symm (hexDigitChar_plain u d hd).2.2.2.2.1
  · exact hmag

theorem sscanf_llx_allHex (t : String) (h : AllHex t.data) (hne : t.data ≠ []) :
    sscanf_llx t = some (min (scanHexDigits t.data 0) (2 ^ 64 - 1)) := by
  have hdrop : t.data.dropWhile isspace = t.data := by
    cases hd : t.data with
    | nil => exact absurd hd hne
    | cons a r =>
      obtain ⟨u, d, hd16, ha⟩ := h a (by rw [hd]; exact List.mem_cons_self _ _)
      rw [List.dropWhile_cons_of_neg]
      rw [ha, (hexDigitChar_plain u d hd16).1]
      simp
  unfold sscanf_llx
  rw [hdrop]
  split
  · rename_i rest heq
    obtain ⟨u, d, hd, ha⟩ := h '-' (by rw [heq]; simp)
    exact absurd ha.symm (hexDigitChar_plain u d hd).2.1
  · rename_i rest heq
    obtain ⟨u, d, hd, ha⟩ := h '+' (by rw [heq]; simp)
    exact absurd ha.symm (hexDigitChar_plain u d hd).2.2.1
  · exact scanUnsigned_allHex _ h hne

theorem sscanf_llx_hexText (up : Nat → Bool) (w c : Nat) (hw1 : 1 ≤ w) (hw16 : w ≤ 16)
    (hc : c < 16 ^ w) :
    c < 2 ^ 64 ∧ c_str (hexText up w c) = hexText up w c ∧
      sscanf_llx (hexText up w c) = some c := by
  have hlt : c < 2 ^ 64 :=
    lt_of_lt_of_le hc (by
      calc 16 ^ w ≤ 16 ^ 16 := Nat.pow_le_pow_right (by norm_num) hw16
        _ = 2 ^ 64 := by norm_num)
  have hall : AllHex (hexText up w c).data := hexChars_allHex up w c
  have hne : (hexText up w c).data ≠ [] := by
    intro hnil
    have := hexChars_length up w c
    simp only [hexText] at hnil
    rw [hnil] at this
    simp at this
    omega
  refine ⟨hlt, ?_, ?_⟩
  · apply c_str_of_no_nul
    intro ch hch
    obtain ⟨u, d, hd, ha⟩ := hall ch hch
    rw [ha]
    exact (hexDigitChar_plain u d hd).2.2.2.2.2
  · rw [sscanf_llx_allHex _ hall hne]
    have hscan : scanHexDigits (hexText up w c).data 0 = c := by
      have := scanHexDigits_hexChars up w c 0 []
      simp only [List.append_nil, scanHexDigits, zero_mul, zero_add] at this
      simp only [hexText]
      rw [this, Nat.mod_eq_of_lt hc]
    rw [hscan]
    congr 1
    omega

theorem sscanf_llx_no_digit (t : String) (h : NoHexDigitToConvert t) :
    sscanf_llx (c_str t) = none := by
  have hmag : ∀ cs : List Char, (∀ ch, cs.head? = some ch → hexDigitVal ch = none) →
      scanUnsigned cs = none := by
    intro cs hcs
    have hm : scanMagnitude cs = none := by
      cases cs with
      | nil => rfl
      | cons a r => simp [scanMagnitude, hcs a rfl]
    unfold scanUnsigned
    split
    · have := hcs '0' rfl
      exact absurd this (by decide)
    · have := hcs '0' rfl
      exact absurd this (by decide)
    · exact hm
  unfold NoHexDigitToConvert scanSubject at h
  unfold sscanf_llx
  split
  · rename_i rest heq
    rw [heq] at h
    rw [hmag rest h]
  · rename_i rest heq
    rw [heq] at h
    exact hmag rest h
  · rename_i cs hminus hplus
    have : (match List.dropWhile isspace (c_str t).data with
        | '-' :: rest => rest
        | '+' :: rest => rest
        | cs => cs) = List.dropWhile isspace (c_str t).data := by
      split
      · rename_i rest heq; exact absurd heq (hminus rest)
      · rename_i rest heq; exact absurd heq (hplus rest)
      · rfl
    rw [this] at h
    exact hmag _ h

theorem parse_conn_id_str (H : Host) (L : LuaState) (idx : Nat) (t : String)
    (h : L[idx - 1]? = some (LuaValue.str t)) :
    parse_conn_id H L idx =
      match sscanf_llx (c_str t) with
      | none => Except.error ConnIdError.invalidHex
      | some c => Except.ok c := by
  simp only [parse_conn_id, lua_isTString, luaL_checkstring, luaL_checklstring, h]
  simp

theorem parse_conn_id_int (H : Host) (L : LuaState) (idx : Nat) (i : Int)
    (h : L[idx - 1]? = some (LuaValue.integer i)) :
    parse_conn_id H L idx = Except.ok (lua_Integer_to_u64 i) := by
  simp only [parse_conn_id, lua_isTString, luaL_checkinteger, h]
  simp

/-- Claim C5: the hexadecimal text of a connection id `c`, written on `w`
digits with `1 ≤ w ≤ 16` in any mix of letter cases (so every `c < 2^64` with
`w = 16`, as `16^16 = 2^64`), is scanned by `sscanf("%llx")` to exactly `c`, and
`c` is the connection id that `decrypt_data` and `set_key` hand to the engine;
a string with no hexadecimal digit to convert is answered with "Invalid
connection ID hex string" and no engine call. -/
theorem hex_conn_id_lossless (H : Host) (s : Globals) (up : Nat → Bool) (w c : Nat)
    (hw1 : 1 ≤ w) (hw16 : w ≤ 16) (hc : c < 16 ^ w)
    (hload : (load_go_dll H s).1 = 1) (hs : s.Bound) (hm : H.malloc_ok 65536 = true) :
    c < 2 ^ 64 ∧
    sscanf_llx (c_str (hexText up w c)) = some c ∧
    (∀ enc d ep rest,
      (lua_decrypt_data H s
          (LuaValue.str enc :: LuaValue.str (hexText up w c) :: d :: LuaValue.integer ep :: rest)
        ).calls
        = [EngineCall.DecryptDataPacket enc (size_t_to_int enc.length) c
            (lua_toboolean [LuaValue.nil, LuaValue.nil, d] 3) (lua_Integer_to_u64 ep) 65536]) ∧
    (∀ key rest,
      (lua_set_key H s (LuaValue.str (hexText up w c) :: LuaValue.str key :: rest)).calls
        = [EngineCall.SetSharedSecretHex c (c_str key)]) ∧
    (∀ t, NoHexDigitToConvert t →
      (∀ enc rest,
        (lua_decrypt_data H s (LuaValue.str enc :: LuaValue.str t :: rest)).out
            = Outcome.returns [LuaValue.nil, LuaValue.str "Invalid connection ID hex string"] ∧
        (lua_decrypt_data H s (LuaValue.str enc :: LuaValue.str t :: rest)).calls = []) ∧
      (∀ rest,
        (lua_set_key H s (LuaValue.str t :: rest)).out
            = Outcome.returns
                [LuaValue.boolean false, LuaValue.str "Invalid connection ID hex string"] ∧
        (lua_set_key H s (LuaValue.str t :: rest)).calls = [])) := by
  obtain ⟨hlt, hcstr, hscan⟩ := sscanf_llx_hexText up w c hw1 hw16 hc
  obtain ⟨-, -, ⟨fs, hfs⟩, ⟨fd, hfd⟩⟩ := load_go_dll_required H s hs hload
  refine ⟨hlt, by rw [hcstr, hscan], ?_, ?_, ?_⟩
  · intro enc d ep rest
    have hp : parse_conn_id H
        (LuaValue.str enc :: LuaValue.str (hexText up w c) :: d :: LuaValue.integer ep :: rest) 2
        = Except.ok c := by
      rw [parse_conn_id_str H _ 2 (hexText up w c) (by simp), hcstr, hscan]
    simp only [lua_decrypt_data, hload, hp, hfd, hm, luaL_checklstring, luaL_checkinteger]
    simp only [lua_toboolean]
    simp
    (repeat' split) <;> simp
  · intro key rest
    have hp : parse_conn_id H (LuaValue.str (hexText up w c) :: LuaValue.str key :: rest) 1
        = Except.ok c := by
      rw [parse_conn_id_str H _ 1 (hexText up w c) (by simp), hcstr, hscan]
    simp only [lua_set_key, hload, hp, hfs, luaL_checklstring]
    simp
    (repeat' split) <;> simp
  · intro t ht
    have hnone := sscanf_llx_no_digit t ht
    constructor
    · intro enc rest
      have hp : parse_conn_id H (LuaValue.str enc :: LuaValue.str t :: rest) 2
          = Except.error ConnIdError.invalidHex := by
        rw [parse_conn_id_str H _ 2 t (by simp), hnone]
      simp [lua_decrypt_data, hload, hp, luaL_checklstring]
    · intro rest
      have hp : parse_conn_id H (LuaValue.str t :: rest) 1
          = Except.error ConnIdError.invalidHex := by
        rw [parse_conn_id_str H _ 1 t (by simp), hnone]
      simp [lua_set_key, hload, hp]

/-! ## The integer connection-id path -/

theorem lua_Integer_to_u64_of_u64 (c : Nat) :
    lua_Integer_to_u64 (u64_to_lua_Integer c) = c % 2 ^ 64 := by
  unfold lua_Integer_to_u64 u64_to_lua_Integer
  have h : c % 2 ^ 64 < 2 ^ 64 := Nat.mod_lt _ (by norm_num)
  split <;> omega

/-- Claim C9: the Lua integer `v` that `get_conn_id` returns for an extracted
64-bit connection id `c` is `c` itself below 2^63 and the negative number
`c - 2^64` from 2^63 on; given back as the integer connection-id argument of
`set_key` or `decrypt_data`, it reaches the engine as exactly `c`. -/
theorem integer_conn_id_roundtrip (H : Host) (s : Globals) (b : String) (rest : LuaState)
    (hs : s.Bound) (hload : (load_go_dll H s).1 = 1) (hlen : 9 ≤ b.length) :
    ∃ (f : GetConnectionIdFunc) (c : Nat) (v : Int),
      (load_go_dll H s).2.go_GetConnectionId = some f ∧
      c = f b (size_t_to_int b.length) % 2 ^ 64 ∧
      (lua_get_conn_id H s (LuaValue.str b :: rest)).out
        = Outcome.returns [LuaValue.integer v] ∧
      (c < 2 ^ 63 → v = (c : Int)) ∧
      (2 ^ 63 ≤ c → v = (c : Int) - 2 ^ 64 ∧ v < 0) ∧
      lua_Integer_to_u64 v = c ∧
      (∀ H2 key rest2,
        (lua_set_key H2 (lua_get_conn_id H s (LuaValue.str b :: rest)).globals
            (LuaValue.integer v :: LuaValue.str key :: rest2)).calls
          = [EngineCall.SetSharedSecretHex c (c_str key)]) ∧
      (∀ H2 enc d ep rest2, H2.malloc_ok 65536 = true →
        (lua_decrypt_data H2 (lua_get_conn_id H s (LuaValue.str b :: rest)).globals
            (LuaValue.str enc :: LuaValue.integer v :: d :: LuaValue.integer ep :: rest2)).calls
          = [EngineCall.DecryptDataPacket enc (size_t_to_int enc.length) c
              (lua_toboolean [LuaValue.nil, LuaValue.nil, d] 3) (lua_Integer_to_u64 ep) 65536]) := by
  obtain ⟨⟨f, hf⟩, -, ⟨fs, hfs⟩, ⟨fd, hfd⟩⟩ := load_go_dll_required H s hs hload
  have hc : f b (size_t_to_int b.length) % 2 ^ 64 < 2 ^ 64 := Nat.mod_lt _ (by norm_num)
  have hback : lua_Integer_to_u64 (u64_to_lua_Integer (f b (size_t_to_int b.length) % 2 ^ 64))
      = f b (size_t_to_int b.length) % 2 ^ 64 := by
    rw [lua_Integer_to_u64_of_u64, Nat.mod_mod]
  have hg : (lua_get_conn_id H s (LuaValue.str b :: rest)).globals = (load_go_dll H s).2 :=
by
    unfold lua_get_conn_id
    simp only []
    (repeat' split) <;> rfl
  have hloaded : ∀ H2, load_go_dll H2 (load_go_dll H s).2 = (1, (load_go_dll H s).2) :=
    fun H2 => load_go_dll_loaded H2 _ ((load_go_dll_handle H s).1 hload)
  refine ⟨f, f b (size_t_to_int b.length) % 2 ^ 64,
    u64_to_lua_Integer (f b (size_t_to_int b.length) % 2 ^ 64), hf, rfl, ?_, ?_, ?_, hback, ?_, ?_⟩
  · simp [lua_get_conn_id, hload, luaL_checklstring, Nat.not_lt.mpr hlen, hf]
  · intro h
    simp only [u64_to_lua_Integer, Nat.mod_mod]
    rw [if_pos h]
  · intro h
    simp only [u64_to_lua_Integer, Nat.mod_mod]
    rw [if_neg (by omega)]
    constructor
    · rfl
    · omega
  · intro H2 key rest2
    rw [hg]
    have hp : parse_conn_id H2 (LuaValue.integer
          (u64_to_lua_Integer (f b (size_t_to_int b.length) % 2 ^ 64))
          :: LuaValue.str key :: rest2) 1
        = Except.ok (f b (size_t_to_int b.length) % 2 ^ 64) := by
      rw [parse_conn_id_int H2 _ 1 (u64_to_lua_Integer (f b (size_t_to_int b.length) % 2 ^ 64))
        (by simp), hback]
    simp only [lua_set_key, hloaded, hp, hfs, luaL_checklstring]
    simp
    (repeat' split) <;> simp
  · intro H2 enc d ep rest2 hm
    rw [hg]
    have hp : parse_conn_id H2 (LuaValue.str enc :: LuaValue.integer
          (u64_to_lua_Integer (f b (size_t_to_int b.length) % 2 ^ 64))
          :: d :: LuaValue.integer ep :: rest2) 2
        = Except.ok (f b (size_t_to_int b.length) % 2 ^ 64) := by
      rw [parse_conn_id_int H2 _ 2 (u64_to_lua_Integer (f b (size_t_to_int b.length) % 2 ^ 64))
        (by simp), hback]
    simp only [lua_decrypt_data, hloaded, hp, hfd, hm, luaL_checklstring, luaL_checkinteger]
    simp only [lua_toboolean]
    simp
    (repeat' split) <;> simp

/-! ## `get_loaded_keys` -/

theorem u64_to_lua_Integer_mod (c : Nat) :
    u64_to_lua_Integer (c % 2 ^ 64) = u64_to_lua_Integer c := by
  simp [u64_to_lua_Integer]

theorem keyTableLoop_in_bounds (H : Host) (written : List Nat) (cap : Nat) :
    ∀ (remaining i : Nat) (acc : List (Int × Int)), i + remaining ≤ cap →
      keyTableLoop H written cap remaining i acc
        = some (acc ++ (List.range' i remaining).map
            (fun j : Nat => ((j : Int) + 1, u64_to_lua_Integer (connIdEntry H written j)))) := by
  intro remaining
  induction remaining with
  | zero => intro i acc _; simp [keyTableLoop]
  | succ n ih =>
    intro i acc h
    have hi : i < cap := by omega
    rw [keyTableLoop, if_pos hi, ih (i + 1) _ (by omega)]
    simp [List.range'_succ]

theorem count_times_sizeof_div (n : Int) (h0 : 0 < n) (h1 : n < 2 ^ 31) :
    count_times_sizeof n / 8 = n.toNat := by
  unfold count_times_sizeof
  have h2 : n % 2 ^ 64 = n := Int.emod_eq_of_lt (le_of_lt h0) (by omega)
  rw [h2]
  omega

/-- Claim C7: `get_loaded_keys` never raises and returns one table, the one
exception being an engine that reports more identifiers written than it was
given room for; the table is empty when the engine fails to load, when an enumeration entry point is
missing, when the key count is 0 and when the allocation fails; for an engine
that reports count `n` and then writes `k ≤ n` identifiers, the table holds
exactly those `k` identifiers (as Lua integers) under the keys 1 to `k` in the
engine's order, so never more than `n`. -/
theorem get_loaded_keys_contract (H : Host) (s : Globals) (L : LuaState) :
    (∀ a, (lua_get_loaded_keys H s L).out ≠ Outcome.raises a) ∧
    ((∃ t, (lua_get_loaded_keys H s L).out = Outcome.returns [LuaValue.table t]) ∨
      ((lua_get_loaded_keys H s L).out = Outcome.fault Fault.outOfBounds ∧
        ∃ fCount fKeys, (load_go_dll H s).2.go_GetLoadedKeyCount = some fCount ∧
          (load_go_dll H s).2.go_GetLoadedKeys = some fKeys ∧
          ((count_times_sizeof (fCount ()) / 8 : Nat) : Int) < (fKeys (fCount ())).1)) ∧
    ((load_go_dll H s).1 = 0 →
      (lua_get_loaded_keys H s L).out = Outcome.returns [LuaValue.table []]) ∧
    ((load_go_dll H s).2.go_GetLoadedKeyCount = none ∨
        (load_go_dll H s).2.go_GetLoadedKeys = none →
      (lua_get_loaded_keys H s L).out = Outcome.returns [LuaValue.table []]) ∧
    (∀ fCount, (load_go_dll H s).2.go_GetLoadedKeyCount = some fCount → fCount () = 0 →
      (lua_get_loaded_keys H s L).out = Outcome.returns [LuaValue.table []]) ∧
    (∀ fCount, (load_go_dll H s).2.go_GetLoadedKeyCount = some fCount →
      H.malloc_ok (count_times_sizeof (fCount ())) = false →
      (lua_get_loaded_keys H s L).out = Outcome.returns [LuaValue.table []]) ∧
    (∀ fCount fKeys (n : Int) (ks : List Nat),
      (load_go_dll H s).1 = 1 →
      (load_go_dll H s).2.go_GetLoadedKeyCount = some fCount →
      (load_go_dll H s).2.go_GetLoadedKeys = some fKeys →
      fCount () = n → 0 < n → n < 2 ^ 31 →
      H.malloc_ok (count_times_sizeof n) = true →
      fKeys n = ((ks.length : Int), ks) → (ks.length : Int) ≤ n →
      ∃ entries,
        (lua_get_loaded_keys H s L).out = Outcome.returns [LuaValue.table entries] ∧
        entries.map Prod.fst = (List.range ks.length).map (fun i : Nat => (i : Int) + 1) ∧
        entries.map Prod.snd = ks.map u64_to_lua_Integer ∧
        (entries.length : Int) ≤ n) := by
  refine ⟨?_, ?_, ?_, ?_, ?_, ?_, ?_⟩
  · intro a
    unfold lua_get_loaded_keys
    simp only []
    (repeat' split) <;> simp
  · unfold lua_get_loaded_keys
    simp only []
    split
    · exact Or.inl ⟨_, rfl⟩
    · split
      · rename_i fCount fKeys hc hk
        split
        · exact Or.inl ⟨_, rfl⟩
        · split
          · exact Or.inl ⟨_, rfl⟩
          · split
            · exact Or.inl ⟨_, rfl⟩
            · rename_i hnone
              refine Or.inr ⟨rfl, fCount, fKeys, hc, hk, ?_⟩
              by_contra hle
              have hb := keyTableLoop_in_bounds H (fKeys (fCount ())).2
                (count_times_sizeof (fCount ()) / 8) (fKeys (fCount ())).1.toNat 0 [] (by omega)
              unfold fillKeyTable at hnone
              rw [hb] at hnone
              cases hnone
      · exact Or.inl ⟨_, rfl⟩
  · intro h0
    simp [lua_get_loaded_keys, h0]
  · intro hnone
    unfold lua_get_loaded_keys
    simp only []
    split
    · rfl
    · rcases hnone with h | h <;> simp [h]
  · intro fCount hc hz
    unfold lua_get_loaded_keys
    simp only [hc]
    split
    · rfl
    · split <;> simp_all
  · intro fCount hc hm
    unfold lua_get_loaded_keys
    simp only [hc]
    split
    · rfl
    · split
      · split <;> simp_all
      · rfl
  · intro fCount fKeys n ks hload hc hk hn h0 h1 hm hres hle
    have hcap : ks.length ≤ count_times_sizeof n / 8 := by
      rw [count_times_sizeof_div n h0 h1]; omega
    have hfill : fillKeyTable H ks (count_times_sizeof n / 8) (ks.length : Int)
        = some ((List.range ks.length).map
            (fun j : Nat => ((j : Int) + 1, u64_to_lua_Integer (connIdEntry H ks j)))) := by
      unfold fillKeyTable
      rw [Int.toNat_ofNat, keyTableLoop_in_bounds H ks _ ks.length 0 [] (by omega)]
      simp [List.range_eq_range']
    refine ⟨(List.range ks.length).map
      (fun j : Nat => ((j : Int) + 1, u64_to_lua_Integer (connIdEntry H ks j))), ?_, ?_, ?_, ?_⟩
    · simp only [lua_get_loaded_keys, hload, hc, hk, hn]
      simp only [hres, hfill, hm]
      simp [ne_of_gt h0]
    · simp [List.map_map, Function.comp_def]
    · rw [List.map_map]
      have : (Prod.snd ∘ fun j : Nat => ((j : Int) + 1, u64_to_lua_Integer (connIdEntry H ks j)))
          = (fun j => u64_to_lua_Integer (ks.getD j (H.uninit_u64 j))) := by
        funext j
        simp only [Function.comp_def, connIdEntry]
        exact u64_to_lua_Integer_mod _
      rw [this]
      have h2 := map_range_getD ks H.uninit_u64 ks.length (le_refl _)
      rw [List.take_length] at h2
      conv_rhs => rw [← h2]
      simp [List.map_map, Function.comp_def]
    · simpa using hle

/-! ## The engine-binding invariant -/

theorem lua_decrypt_data_safe (H : Host) (s : Globals) (L : LuaState) (hs : s.Bound) :
    SafeOn lua_decrypt_data H s L := by
  rcases load_go_dll_result H s with hload | hload
  · obtain ⟨-, -, -, f, hf⟩ := load_go_dll_required H s hs hload
    unfold SafeOn lua_decrypt_data
    simp only [hload, hf]
    refine ⟨?_, ?_, ?_⟩ <;>
      (repeat' split) <;> simp_all [EngineCall.boundIn]
  · simp [SafeOn, lua_decrypt_data, hload]

theorem lua_set_key_safe (H : Host) (s : Globals) (L : LuaState) (hs : s.Bound) :
    SafeOn lua_set_key H s L := by
  rcases load_go_dll_result H s with hload | hload
  · obtain ⟨-, -, ⟨f, hf⟩, -⟩ := load_go_dll_required H s hs hload
    unfold SafeOn lua_set_key
    simp only [hload, hf]
    refine ⟨?_, ?_, ?_⟩ <;>
      (repeat' split) <;> simp_all [EngineCall.boundIn]
  · simp [SafeOn, lua_set_key, hload]

theorem lua_get_conn_id_safe (H : Host) (s : Globals) (L : LuaState) (hs : s.Bound) :
    SafeOn lua_get_conn_id H s L := by
  rcases load_go_dll_result H s with hload | hload
  · obtain ⟨⟨f, hf⟩, -⟩ := load_go_dll_required H s hs hload
    unfold SafeOn lua_get_conn_id
    simp only [hload, hf]
    refine ⟨?_, ?_, ?_⟩ <;>
      (repeat' split) <;> simp_all [EngineCall.boundIn]
  · simp [SafeOn, lua_get_conn_id, hload]

theorem lua_get_message_type_safe (H : Host) (s : Globals) (L : LuaState) (hs : s.Bound) :
    SafeOn lua_get_message_type H s L := by
  rcases load_go_dll_result H s with hload | hload
  · obtain ⟨-, ⟨f, hf⟩, -⟩ := load_go_dll_required H s hs hload
    unfold SafeOn lua_get_message_type
    simp only [hload, hf]
    refine ⟨?_, ?_, ?_⟩ <;>
      (repeat' split) <;> simp_all [EngineCall.boundIn]
  · simp [SafeOn, lua_get_message_type, hload]

theorem lua_get_version_safe (H : Host) (s : Globals) (L : LuaState) :
    SafeOn lua_get_version H s L := by
  rcases load_go_dll_result H s with hload | hload
  · unfold SafeOn lua_get_version
    simp only [hload]
    refine ⟨?_, ?_, ?_⟩ <;>
      (repeat' split) <;> simp_all [EngineCall.boundIn]
  · simp [SafeOn, lua_get_version, hload]

theorem lua_get_loaded_keys_safe (H : Host) (s : Globals) (L : LuaState) :
    SafeOn lua_get_loaded_keys H s L := by
  rcases load_go_dll_result H s with hload | hload
  · unfold SafeOn lua_get_loaded_keys
    simp only [hload]
    refine ⟨?_, ?_, ?_⟩ <;>
      (repeat' split) <;> simp_all [EngineCall.boundIn]
  · simp [SafeOn, lua_get_loaded_keys, hload]

theorem lua_test_safe (H : Host) (s : Globals) (L : LuaState) :
    SafeOn lua_test H s L := by
  rcases load_go_dll_result H s with hload | hload
  · unfold SafeOn lua_test
    simp only [hload]
    refine ⟨?_, ?_, ?_⟩ <;>
      (repeat' split) <;> simp_all [EngineCall.boundIn]
  · simp [SafeOn, lua_test, hload]

/-- Claim C10: after any sequence of `load_go_dll` calls the library handle is
non-null only if the four required entry points are bound; a further
`load_go_dll` returns 1 exactly when it leaves the handle non-null with the
four bound, and otherwise returns 0 with the handle null; so every registered
boundary function calls no null pointer, and each engine call it makes, required
or optional, goes through a pointer that is non-null. -/
theorem engine_binding_invariant (hosts : List Host) (H : Host) (L : LuaState) :
    (runLoads hosts Globals.init).Bound ∧
    ((load_go_dll H (runLoads hosts Globals.init)).1 = 1 ↔
      ((load_go_dll H (runLoads hosts Globals.init)).2.goDLL.isSome = true ∧
        (load_go_dll H (runLoads hosts Globals.init)).2.go_GetConnectionId.isSome = true ∧
        (load_go_dll H (runLoads hosts Globals.init)).2.go_GetMessageType.isSome = true ∧
        (load_go_dll H (runLoads hosts Globals.init)).2.go_SetSharedSecretHex.isSome = true ∧
        (load_go_dll H (runLoads hosts Globals.init)).2.go_DecryptDataPacket.isSome = true)) ∧
    ((load_go_dll H (runLoads hosts Globals.init)).1 ≠ 1 →
      (load_go_dll H (runLoads hosts Globals.init)).1 = 0 ∧
      (load_go_dll H (runLoads hosts Globals.init)).2.goDLL = none) ∧
    (∀ entry ∈ qotp_decrypt_funcs,
      (entry.2 H (runLoads hosts Globals.init) L).out ≠ Outcome.fault Fault.nullCall ∧
      ∀ call ∈ (entry.2 H (runLoads hosts Globals.init) L).calls,
        call.boundIn (entry.2 H (runLoads hosts Globals.init) L).globals = true) := by
  have hs : (runLoads hosts Globals.init).Bound := runLoads_bound hosts _ init_bound
  have hb := load_go_dll_bound H _ hs
  refine ⟨hs, ⟨fun h => ?_, fun h => (load_go_dll_handle H _).2 h.1⟩, fun h => ?_, ?_⟩
  · have hh := (load_go_dll_handle H _).1 h
    exact ⟨hh, hb hh⟩
  · have h0 : (load_go_dll H (runLoads hosts Globals.init)).1 = 0 := by
      rcases load_go_dll_result H (runLoads hosts Globals.init) with h1 | h1
      · exact absurd h1 h
      · exact h1
    refine ⟨h0, ?_⟩
    have hn : ¬ (load_go_dll H (runLoads hosts Globals.init)).2.goDLL.isSome = true :=
      fun hh => h ((load_go_dll_handle H _).2 hh)
    simpa using hn
  · have key : ∀ op : Host → Globals → LuaState → Ret,
        SafeOn op H (runLoads hosts Globals.init) L →
        (op H (runLoads hosts Globals.init) L).out ≠ Outcome.fault Fault.nullCall ∧
        ∀ call ∈ (op H (runLoads hosts Globals.init) L).calls,
          call.boundIn (op H (runLoads hosts Globals.init) L).globals = true := by
      intro op hsafe
      exact ⟨hsafe.2.1, fun call hc => by rw [hsafe.1]; exact hsafe.2.2 call hc⟩
    intro entry hmem
    simp only [qotp_decrypt_funcs, List.mem_cons, List.mem_singleton, List.not_mem_nil,
      or_false] at hmem
    rcases hmem with h | h | h | h | h | h | h <;> subst h
    · exact key _ (lua_decrypt_data_safe H _ L hs)
    · exact key _ (lua_set_key_safe H _ L hs)
    · exact key _ (lua_get_conn_id_safe H _ L hs)
    · exact key _ (lua_get_message_type_safe H _ L hs)
    · exact key _ (lua_get_version_safe H _ L)
    · exact key _ (lua_get_loaded_keys_safe H _ L)
    · exact key _ (lua_test_safe H _ L)

/-! ## The statements at concrete inputs -/

/-- Claim C1 at concrete packets: a 5-byte packet is refused without an engine
call; a 9-byte packet carrying connection id 0x1122334455667708 gives that
integer after one extractor call. -/
theorem get_conn_id_contract_witness :
    Globals.init.Bound ∧ (load_go_dll demoHost Globals.init).1 = 1 ∧
    ("short".length < 9 ∧
      (lua_get_conn_id demoHost Globals.init [LuaValue.str "short"]).out
          = Outcome.returns [LuaValue.nil, LuaValue.str "Packet too short"] ∧
      (lua_get_conn_id demoHost Globals.init [LuaValue.str "short"]).calls = []) ∧
    (9 ≤ "\x04\x11\x22\x33\x44\x55\x66\x77\x08".length ∧
      (lua_get_conn_id demoHost Globals.init
          [LuaValue.str "\x04\x11\x22\x33\x44\x55\x66\x77\x08"]).calls
        = [EngineCall.GetConnectionId "\x04\x11\x22\x33\x44\x55\x66\x77\x08" 9] ∧
      (lua_get_conn_id demoHost Globals.init
          [LuaValue.str "\x04\x11\x22\x33\x44\x55\x66\x77\x08"]).out
        = Outcome.returns [LuaValue.integer 0x1122334455667708]) := by
  refine ⟨init_bound, by decide, ⟨by decide,
    (get_conn_id_contract demoHost Globals.init "short" [] init_bound (by decide)).1
      (by decide)⟩, by decide, ?_⟩
  obtain ⟨f, hf, hcalls, hout⟩ := (get_conn_id_contract demoHost Globals.init
    "\x04\x11\x22\x33\x44\x55\x66\x77\x08" [] init_bound (by decide)).2 (by decide)
  have hfe : f = fun data _ =>
      ((data.data.drop 1).take 8).foldl (fun acc ch => acc * 256 + ch.toNat) 0 :=
    (Option.some.inj hf).symm
  refine ⟨hcalls.trans (by decide), hout.trans ?_⟩
  rw [hfe]
  decide

/-- Claim C2 at a concrete call: connection id 5 has no secret in the store, the
engine gives -1 and the adapter answers `(nil, "No shared secret for
connection")`. -/
theorem decrypt_data_negative_result_witness :
    (load_go_dll demoHost Globals.init).1 = 1 ∧
    (load_go_dll demoHost Globals.init).2.go_DecryptDataPacket
      = some (engine_DecryptDataPacket toyAEAD toyBuild toyStore) ∧
    demoHost.malloc_ok 65536 = true ∧
    (-1 : Int) < 0 ∧
    (lua_decrypt_data demoHost Globals.init
        [LuaValue.str "abc", LuaValue.integer 5, LuaValue.boolean true, LuaValue.integer 1]).out
      = Outcome.returns [LuaValue.nil, LuaValue.str (decryptErrorMessage (-1))] ∧
    decryptErrorMessage (-1) = "No shared secret for connection" :=
  ⟨by decide, rfl, by decide, by decide,
    (decrypt_data_negative_result demoHost Globals.init
      [LuaValue.str "abc", LuaValue.integer 5, LuaValue.boolean true, LuaValue.integer 1]
      (engine_DecryptDataPacket toyAEAD toyBuild toyStore) "abc" 5 1 (-1)
      (by decide) rfl rfl rfl rfl (by decide) rfl (by decide)).1,
    (decrypt_data_negative_result demoHost Globals.init
      [LuaValue.str "abc", LuaValue.integer 5, LuaValue.boolean true, LuaValue.integer 1]
      (engine_DecryptDataPacket toyAEAD toyBuild toyStore) "abc" 5 1 (-1)
      (by decide) rfl rfl rfl rfl (by decide) rfl (by decide)).2.1 rfl⟩

/-- Claim C3 (amended) at concrete inputs: a packet whose first byte is 4 is
"Data" on a loaded engine and "Error" when the library cannot be loaded. -/
theorem get_message_type_contract_witness :
    Globals.init.Bound ∧
    (load_go_dll demoHost Globals.init).1 = 1 ∧
    (lua_get_message_type demoHost Globals.init [LuaValue.str "\x04"]).out
      ≠ Outcome.returns [LuaValue.nil] ∧
    (load_go_dll hostNoLibrary Globals.init).1 = 0 ∧
    (lua_get_message_type hostNoLibrary Globals.init [LuaValue.str "\x04"]).out
      = Outcome.returns [LuaValue.str "Error"] :=
  ⟨init_bound, by decide,
    fun h => absurd (((get_message_type_contract demoHost Globals.init "\x04" [] init_bound).2
      (by decide)).2.1.1 h) (by decide),
    by decide,
    (get_message_type_contract hostNoLibrary Globals.init "\x04" [] init_bound).1 (by decide)⟩

/-- Claim C6 at concrete calls: a secret the engine accepts gives `true`, one it
rejects gives `(false, "Invalid hex string")`. -/
theorem set_key_result_witness :
    (load_go_dll demoHost Globals.init).1 = 1 ∧
    (lua_set_key demoHost Globals.init [LuaValue.integer 7, LuaValue.str "00ff"]).out
      = Outcome.returns [LuaValue.boolean true] ∧
    (lua_set_key demoHost Globals.init [LuaValue.str "1122334455667788", LuaValue.str "0ff"]).out
      = Outcome.returns [LuaValue.boolean false, LuaValue.str "Invalid hex string"] :=
  ⟨by decide,
    (set_key_result demoHost Globals.init [LuaValue.integer 7, LuaValue.str "00ff"]
      (fun _ key => if key.length % 2 = 0 then 0 else -1) 7 "00ff"
      (by decide) rfl rfl rfl).2.1.2 (by decide),
    (set_key_result demoHost Globals.init
      [LuaValue.str "1122334455667788", LuaValue.str "0ff"]
      (fun _ key => if key.length % 2 = 0 then 0 else -1) 0x1122334455667788 "0ff"
      (by decide) rfl rfl rfl).2.2 (by decide)⟩

/-- Claim C4 at a concrete call: the toy encryption of "hello" for connection 1,
sender direction, epoch 1; the engine is offered 65536 bytes, writes 5 and the
adapter returns those 5 bytes. -/
theorem decrypt_data_capacity_witness :
    (load_go_dll demoHost Globals.init).1 = 1 ∧
    demoHost.malloc_ok 65536 = true ∧
    (lua_decrypt_data demoHost Globals.init
        [LuaValue.str "aaaaaaaaaabhello", LuaValue.integer 1, LuaValue.boolean true,
          LuaValue.integer 1]).calls
      = [EngineCall.DecryptDataPacket "aaaaaaaaaabhello" 16 1 1 1 65536] ∧
    (lua_decrypt_data demoHost Globals.init
        [LuaValue.str "aaaaaaaaaabhello", LuaValue.integer 1, LuaValue.boolean true,
          LuaValue.integer 1]).out
      = Outcome.returns [LuaValue.str (String.mk ("hello".data.take 5))] :=
  ⟨by decide, by decide,
    (decrypt_data_capacity demoHost Globals.init
      [LuaValue.str "aaaaaaaaaabhello", LuaValue.integer 1, LuaValue.boolean true,
        LuaValue.integer 1]
      (engine_DecryptDataPacket toyAEAD toyBuild toyStore) "aaaaaaaaaabhello" 1 1
      (by decide) rfl rfl rfl rfl (by decide)).2.1,
    ((decrypt_data_capacity demoHost Globals.init
      [LuaValue.str "aaaaaaaaaabhello", LuaValue.integer 1, LuaValue.boolean true,
        LuaValue.integer 1]
      (engine_DecryptDataPacket toyAEAD toyBuild toyStore) "aaaaaaaaaabhello" 1 1
      (by decide) rfl rfl rfl rfl (by decide)).2.2.1 5 "hello".data rfl (by decide)
      (by decide)).1⟩

/-- Claim C5 at a concrete id: the 16-digit upper-case text of
0xFFEEDDCCBBAA9988, an id above 2^63, scans back to that id. -/
theorem hex_conn_id_lossless_witness :
    (1 ≤ 16 ∧ 16 ≤ 16 ∧ 0xFFEEDDCCBBAA9988 < 16 ^ 16) ∧
    (load_go_dll demoHost Globals.init).1 = 1 ∧ Globals.init.Bound ∧
    demoHost.malloc_ok 65536 = true ∧
    hexText (fun _ => true) 16 0xFFEEDDCCBBAA9988 = "FFEEDDCCBBAA9988" ∧
    2 ^ 63 ≤ 0xFFEEDDCCBBAA9988 ∧
    sscanf_llx (c_str (hexText (fun _ => true) 16 0xFFEEDDCCBBAA9988))
      = some 0xFFEEDDCCBBAA9988 :=
  ⟨⟨by decide, by decide, by norm_num⟩, by decide, init_bound, by decide, by rfl, by norm_num,
    (hex_conn_id_lossless demoHost Globals.init (fun _ => true) 16 0xFFEEDDCCBBAA9988
      (by decide) (by decide) (by norm_num) (by decide) init_bound (by decide)).2.1⟩

/-- Claim C9 at a concrete packet: the connection id 0xFFEEDDCCBBAA9988 comes out
of `get_conn_id` as the Lua integer -4822678189205112 and, given back to
`set_key`, reaches `SetSharedSecretHex` as 0xFFEEDDCCBBAA9988. -/
theorem integer_conn_id_roundtrip_witness :
    Globals.init.Bound ∧ (load_go_dll demoHost Globals.init).1 = 1 ∧
    9 ≤ "\x04\xff\xee\xdd\xcc\xbb\xaa\x99\x88".length ∧
    (lua_get_conn_id demoHost Globals.init
        [LuaValue.str "\x04\xff\xee\xdd\xcc\xbb\xaa\x99\x88"]).out
      = Outcome.returns [LuaValue.integer (-4822678189205112)] ∧
    lua_Integer_to_u64 (-4822678189205112) = 0xFFEEDDCCBBAA9988 ∧
    (lua_set_key demoHost
        (lua_get_conn_id demoHost Globals.init
          [LuaValue.str "\x04\xff\xee\xdd\xcc\xbb\xaa\x99\x88"]).globals
        [LuaValue.integer (-4822678189205112), LuaValue.str "00ff"]).calls
      = [EngineCall.SetSharedSecretHex 0xFFEEDDCCBBAA9988 (c_str "00ff")] := by
  refine ⟨init_bound, by decide, by decide, ?_⟩
  obtain ⟨f, c, v, hf, hc, hout, -, hneg, hback, hset, -⟩ :=
    integer_conn_id_roundtrip demoHost Globals.init
      "\x04\xff\xee\xdd\xcc\xbb\xaa\x99\x88" [] init_bound (by decide) (by decide)
  have hfe : f = fun data _ =>
      ((data.data.drop 1).take 8).foldl (fun acc ch => acc * 256 + ch.toNat) 0 :=
    (Option.some.inj hf).symm
  have hcv : c = 0xFFEEDDCCBBAA9988 := by
    rw [hc, hfe]
    decide
  have hv : v = -4822678189205112 := by
    rw [(hneg (by rw [hcv]; norm_num)).1, hcv]
    norm_num
  subst hcv
  subst hv
  exact ⟨hout, hback, hset demoHost "00ff" []⟩

/-- Claim C7 at a concrete engine: two loaded keys come back under the keys 1
and 2, the second one, above 2^63, as a negative Lua integer. -/
theorem get_loaded_keys_contract_witness :
    (lua_get_loaded_keys demoHost Globals.init []).out
      = Outcome.returns [LuaValue.table
          [(1, 0x1122334455667788), (2, -4822678189205112)]] := by
  obtain ⟨entries, hout, hk, hv, -⟩ :=
    (get_loaded_keys_contract demoHost Globals.init []).2.2.2.2.2.2
      (fun _ => 2) (fun _ => (2, [0x1122334455667788, 0xffeeddccbbaa9988])) 2
      [0x1122334455667788, 0xffeeddccbbaa9988]
      (by decide) rfl rfl rfl (by decide) (by norm_num) (by decide) rfl (by decide)
  have hk2 : entries.map Prod.fst = [1, 2] := hk
  have hv2 : entries.map Prod.snd = [0x1122334455667788, -4822678189205112] :=
    hv.trans (by decide)
  rw [hout]
  rcases entries with _ | ⟨⟨a, b⟩, _ | ⟨⟨c, d⟩, _ | ⟨e, t⟩⟩⟩
  · simp at hk2
  · simp at hk2
  · simp only [List.map_cons, List.map_nil, List.cons.injEq, and_true] at hk2 hv2
    obtain ⟨rfl, rfl⟩ := hk2
    obtain ⟨rfl, rfl⟩ := hv2
    rfl
  · simp at hk2

end Qotp
